import Mathlib

/-!
Shallow embedding of the streaming-sound decode scheduler
(`crates/kira/src/sound/streaming/sound/decode_scheduler.rs`) and of the
spatial listener mixer (`crates/kira/src/spatial/listener.rs`).

Machine numerics are idealized: `f32`/`f64` become `ℝ` (listener math) or
`ℚ` (seconds positions, where exact rational arithmetic keeps everything
decidable), `i64` becomes `Int` with explicit saturation where the source
casts, `usize`/`u32` become `Nat`.  The decoder trait object is a record of
pure state-passing functions over an abstract decoder-state type `σ` with
an abstract error type `ε`.  Ring buffers become lists paired with their
capacity bound.
-/

namespace Kira

/-- A stereo audio sample pair.  Modelled from the spec: `Frame` lives in
`dsp/frame.rs`, outside the extracted sources; the spec describes it as a
pair `(left, right)` with componentwise arithmetic and `ZERO = (0,0)`. -/
structure Frame where
  left : ℝ
  right : ℝ

/-- The constant `Frame::ZERO`. -/
def Frame.ZERO : Frame := ⟨0, 0⟩

instance : Add Frame := ⟨fun a b => ⟨a.left + b.left, a.right + b.right⟩⟩

instance : Zero Frame := ⟨Frame.ZERO⟩

/-- Scalar multiplication `frame * amplitude` (componentwise, per spec). -/
def Frame.scale (f : Frame) (a : ℝ) : Frame := ⟨f.left * a, f.right * a⟩

instance : AddCommMonoid Frame where
  add_assoc a b c := congrArg₂ Frame.mk (add_assoc _ _ _) (add_assoc _ _ _)
  zero_add a := congrArg₂ Frame.mk (zero_add _) (zero_add _)
  add_zero a := congrArg₂ Frame.mk (add_zero _) (add_zero _)
  add_comm a b := congrArg₂ Frame.mk (add_comm _ _) (add_comm _ _)
  nsmul := nsmulRec

/-- A frame tagged with its absolute index on the source's timeline
(`TimestampedFrame` in `streaming/sound.rs`; the index is an `i64` and may
be negative, meaning pre-start silence). -/
structure TimestampedFrame where
  frame : Frame
  index : Int

/-- A region `[start, end)` in seconds (`start`/`end` of the settings
records; `end = none` means "to end of source").  `f64` seconds are
idealized as `ℚ`. -/
structure Region where
  start : ℚ
  stop : Option ℚ

/-- Modelled from the spec: `PlaybackState` (defined outside the extracted
sources) is the three-valued playback state stored in the shared block. -/
inductive PlaybackState where
  | Playing
  | Paused
  | Stopped
  deriving DecidableEq, Repr

/-- Modelled from the spec: the `Shared` atomic block connecting the decoder
thread and the audio thread — playback state, renderer-published position in
seconds, and the end-reached flag. -/
structure Shared where
  state : PlaybackState
  position : ℚ
  reached_end : Bool

/-- The `DecodeSchedulerCommand` variants: the tagged command variants consumed by the
scheduler's command ring. -/
inductive DecodeSchedulerCommand where
  | SetPlaybackRegion (region : Region)
  | SetLoopRegion (region : Option Region)
  | SeekBy (amount : ℚ)
  | SeekTo (position : ℚ)

/-- The abstract `Decoder` capability (trait in `streaming/decoder.rs`):
`σ` is the codec's private mutable state, threaded explicitly; `decode` and
`seek` mutate it even on failure, matching `&mut self` in Rust. -/
structure Decoder (σ ε : Type) where
  sample_rate : Nat
  num_frames : Option Nat
  decode : σ → σ × Except ε (List Frame)
  seek : Nat → σ → σ × Except ε Nat

/-- The constant `i64::MAX`. -/
def I64_MAX : Int := 2 ^ 63 - 1

/-- The constant `i64::MIN`. -/
def I64_MIN : Int := -(2 ^ 63)

/-- Rust's `f64::round`: round half away from zero. -/
def f64_round (q : ℚ) : Int := if 0 ≤ q then ⌊q + 1 / 2⌋ else -⌊-q + 1 / 2⌋

/-- Rust's saturating float-to-`i64` cast (`as i64`). -/
def as_i64 (n : Int) : Int := max I64_MIN (min I64_MAX n)

/-- Modelled from the spec: resolution of a playback region from seconds to
a half-open frame-index interval, using the decoder's sample rate; with the
total length unknown the end defaults to `i64::MAX`. -/
def resolvePlaybackRegion (r : Region) (sample_rate : Nat) (num_frames : Option Nat) :
    Int × Int :=
  (f64_round (r.start * sample_rate),
    match r.stop with
    | some e => f64_round (e * sample_rate)
    | none =>
      match num_frames with
      | some n => (n : Int)
      | none => I64_MAX)

/-- Modelled from the spec: resolution of an optional loop region; a loop is
permitted only when both bounds are concrete. -/
def resolveLoopRegion (r : Option Region) (sample_rate : Nat) (num_frames : Option Nat) :
    Option (Int × Int) :=
  r.bind fun reg =>
    match reg.stop with
    | some e => some (f64_round (reg.start * sample_rate), f64_round (e * sample_rate))
    | none =>
      match num_frames with
      | some n => some (f64_round (reg.start * sample_rate), (n : Int))
      | none => none

/-- Modelled from the spec: the `Transport` state machine (in
`sound/transport.rs`, outside the extracted sources) — a frame-position
cursor plus a playing flag, parameterized by resolved playback and loop
regions. -/
structure Transport where
  position : Int
  playing : Bool
  playback_start : Int
  playback_end : Int
  loop_region : Option (Int × Int)

/-- Modelled from the spec: `Transport::new` resolves the regions and places
the cursor at the playback region start. -/
def Transport.new (playback_region : Region) (loop_region : Option Region)
    (_reverse : Bool) (sample_rate : Nat) (num_frames : Option Nat) : Transport :=
  let (ps, pe) := resolvePlaybackRegion playback_region sample_rate num_frames
  { position := ps
    playing := true
    playback_start := ps
    playback_end := pe
    loop_region := resolveLoopRegion loop_region sample_rate num_frames }

/-- Modelled from the spec: `set_playback_region` updates the bounds without
moving the cursor. -/
def Transport.set_playback_region (t : Transport) (region : Region)
    (sample_rate : Nat) (num_frames : Option Nat) : Transport :=
  let (ps, pe) := resolvePlaybackRegion region sample_rate num_frames
  { t with playback_start := ps, playback_end := pe }

/-- Modelled from the spec: `set_loop_region` updates the loop bounds without
moving the cursor. -/
def Transport.set_loop_region (t : Transport) (region : Option Region)
    (sample_rate : Nat) (num_frames : Option Nat) : Transport :=
  { t with loop_region := resolveLoopRegion region sample_rate num_frames }

/-- Modelled from the spec: `increment_position` advances the cursor; a loop
region wraps it back, otherwise passing the playback end clears `playing`. -/
def Transport.increment_position (t : Transport) : Transport :=
  let p := t.position + 1
  match t.loop_region with
  | some (ls, le) =>
    if le ≤ p then { t with position := p - (le - ls) }
    else if t.playback_end ≤ p then { t with position := p, playing := false }
    else { t with position := p }
  | none =>
    if t.playback_end ≤ p then { t with position := p, playing := false }
    else { t with position := p }

/-- Modelled from the spec: `seek_to` sets the cursor directly and re-enters
`playing` when the target lies inside the playback region. -/
def Transport.seek_to (t : Transport) (index : Int) : Transport :=
  if t.playback_start ≤ index ∧ index < t.playback_end then
    { t with position := index, playing := true }
  else
    { t with position := index }

/-- A `DecodedChunk`: one contiguous run of decoded frames, covering absolute
source frames `[start_index, start_index + frames.length)`. -/
structure DecodedChunk where
  start_index : Nat
  frames : List Frame

/-- Lookup `DecodedChunk::frame_at_index`. -/
def DecodedChunk.frame_at_index (c : DecodedChunk) (index : Nat) : Option Frame :=
  if index < c.start_index then none
  else c.frames.get? (index - c.start_index)

/-- Capacity of the frame ring (`BUFFER_SIZE`). -/
def BUFFER_SIZE : Nat := 16384

/-- The mutable fields of `DecodeScheduler`, with the decoder's private
state `σ` threaded through and the SPSC frame ring modelled as the list of
frames currently buffered.  The pending commands list models the command
ring's current contents. -/
structure SchedState (σ : Type) where
  dstate : σ
  sample_rate : Nat
  num_frames : Option Nat
  transport : Transport
  decoder_current_frame_index : Nat
  decoded_chunk : Option DecodedChunk
  commands : List DecodeSchedulerCommand
  frame_ring : List TimestampedFrame
  shared : Shared

/-- Outcome of a fallible scheduler operation: Rust's `Result<α, ε>` where
`self` keeps its mutations in either case. -/
inductive Res (σ ε α : Type) where
  | err (e : ε) (s : SchedState σ)
  | ok (a : α) (s : SchedState σ)

/-- The `NextStep` result of one `run` step. -/
inductive NextStep where
  | Continue
  | Wait
  | End
  deriving DecidableEq, Repr

/-- Outcome of one `run` step.  `panicked` models the `.expect` on the frame
push failing; `fuelOut` is an artifact of bounding the decode loop with
fuel (the Rust loop is unbounded). -/
inductive RunResult (σ ε : Type) where
  | fuelOut
  | panicked
  | err (e : ε) (s : SchedState σ)
  | ok (step : NextStep) (s : SchedState σ)

/-- Returns `true` exactly on the `panicked` outcome. -/
def RunResult.isPanicked {σ ε : Type} : RunResult σ ε → Bool
  | .panicked => true
  | _ => false

namespace DecodeScheduler

variable {σ ε : Type}

/-- The `loop` inside `frame_at_index`: decode chunks sequentially, each one
replacing the cache with `start_index` = the current decoder cursor and
advancing the cursor by its length, until the cache covers the requested
index.  Bounded by fuel; `none` means the fuel ran out. -/
def decode_loop (D : Decoder σ ε) (index : Nat) :
    Nat → SchedState σ → Option (Res σ ε Frame)
  | 0, _ => none
  | fuel + 1, s =>
    let (d', r) := D.decode s.dstate
    match r with
    | .error e => some (.err e { s with dstate := d' })
    | .ok frames =>
      let chunk : DecodedChunk := ⟨s.decoder_current_frame_index, frames⟩
      let s' : SchedState σ :=
        { s with
          dstate := d'
          decoder_current_frame_index := s.decoder_current_frame_index + frames.length
          decoded_chunk := some chunk }
      match chunk.frame_at_index index with
      | some f => some (.ok f s')
      | none => decode_loop D index fuel s'

/-- The method `DecodeScheduler::frame_at_index`. -/
def frame_at_index (D : Decoder σ ε) (fuel : Nat) (index : Int) (s : SchedState σ) :
    Option (Res σ ε Frame) :=
  if index < 0 then some (.ok Frame.ZERO s)
  else
    match s.decoded_chunk.bind fun c => c.frame_at_index index.toNat with
    | some f => some (.ok f s)
    | none =>
      if index.toNat < s.decoder_current_frame_index then
        let (d', r) := D.seek index.toNat s.dstate
        match r with
        | .error e => some (.err e { s with dstate := d' })
        | .ok n =>
          decode_loop D index.toNat fuel { s with dstate := d', decoder_current_frame_index := n }
      else decode_loop D index.toNat fuel s

/-- The method `DecodeScheduler::seek_to_index`: seek the transport, then seek the
decoder (clamping a negative index to 0) and store the index the decoder
actually landed on as the new decoder cursor. -/
def seek_to_index (D : Decoder σ ε) (index : Int) (s : SchedState σ) : Res σ ε Unit :=
  let t := s.transport.seek_to index
  let (d', r) := D.seek (if index < 0 then 0 else index.toNat) s.dstate
  match r with
  | .error e => .err e { s with transport := t, dstate := d' }
  | .ok n =>
    .ok () { s with transport := t, dstate := d', decoder_current_frame_index := n }

/-- The method `DecodeScheduler::seek_to`: `(position * sample_rate).round() as i64`. -/
def seek_to (D : Decoder σ ε) (position : ℚ) (s : SchedState σ) : Res σ ε Unit :=
  seek_to_index D (as_i64 (f64_round (position * s.sample_rate))) s

/-- The method `DecodeScheduler::seek_by`: seek to the renderer-published shared
position plus the delta. -/
def seek_by (D : Decoder σ ε) (amount : ℚ) (s : SchedState σ) : Res σ ε Unit :=
  seek_to D (s.shared.position + amount) s

/-- Dispatch of one command popped from the command ring. -/
def handle_command (D : Decoder σ ε) (c : DecodeSchedulerCommand) (s : SchedState σ) :
    Res σ ε Unit :=
  match c with
  | .SetPlaybackRegion region =>
    .ok () { s with transport := s.transport.set_playback_region region s.sample_rate s.num_frames }
  | .SetLoopRegion region =>
    .ok () { s with transport := s.transport.set_loop_region region s.sample_rate s.num_frames }
  | .SeekBy amount => seek_by D amount s
  | .SeekTo position => seek_to D position s

/-- The `while let Some(command) = self.command_consumer.pop()` loop: pops
commands one at a time; a seek error aborts the drain with the remaining
commands still pending. -/
def drain_loop (D : Decoder σ ε) :
    List DecodeSchedulerCommand → SchedState σ → Res σ ε Unit
  | [], s => .ok () s
  | c :: cs, s =>
    match handle_command D c { s with commands := cs } with
    | .err e s' => .err e s'
    | .ok _ s' => drain_loop D cs s'

/-- The method `DecodeScheduler::run`: one step of the decoder thread. -/
def run (D : Decoder σ ε) (fuel : Nat) (s : SchedState σ) : RunResult σ ε :=
  if s.shared.state = PlaybackState.Stopped then .ok .End s
  else if BUFFER_SIZE ≤ s.frame_ring.length then .ok .Wait s
  else
    match drain_loop D s.commands { s with commands := [] } with
    | .err e s' => .err e s'
    | .ok _ s1 =>
      match frame_at_index D fuel s1.transport.position s1 with
      | none => .fuelOut
      | some (.err e s2) => .err e s2
      | some (.ok f s2) =>
        if BUFFER_SIZE ≤ s2.frame_ring.length then .panicked
        else
          let s3 : SchedState σ :=
            { s2 with
              frame_ring := s2.frame_ring ++ [⟨f, s2.transport.position⟩]
              transport := s2.transport.increment_position }
          if s3.transport.playing then .ok .Continue s3
          else .ok .End { s3 with shared := { s3.shared with reached_end := true } }

/-- Settings relevant to scheduler construction. -/
structure StreamingSoundSettings where
  playback_region : Region
  loop_region : Option Region

/-- The constructor `DecodeScheduler::new`: seeds the freshly created frame ring with one
zero frame at index 0, reads the decoder's sample rate and frame count,
builds the transport, and returns `Ok`.  The returned `frame_ring` is the
consumer end of the same ring the scheduler state holds. -/
def new (D : Decoder σ ε) (settings : StreamingSoundSettings) (shared : Shared)
    (commands : List DecodeSchedulerCommand) (d0 : σ) :
    Except ε (SchedState σ) :=
  let seeded : List TimestampedFrame := [⟨Frame.ZERO, 0⟩]
  .ok
    { dstate := d0
      sample_rate := D.sample_rate
      num_frames := D.num_frames
      transport :=
        Transport.new settings.playback_region settings.loop_region false
          D.sample_rate D.num_frames
      decoder_current_frame_index := 0
      decoded_chunk := none
      commands := commands
      frame_ring := seeded
      shared := shared }

end DecodeScheduler

/-- The state of the decoder thread spawned by `DecodeScheduler::start`: the
scheduler plus the producer end of the error ring (a list bounded by its
capacity). -/
structure ThreadState (σ ε : Type) where
  sched : SchedState σ
  error_ring : List ε
  error_capacity : Nat

/-- Outcome of one iteration of the decoder-thread loop: keep looping, exit
the thread, or a model artifact (`stuck` = fuel ran out or the frame push
panicked). -/
inductive DriverStep (σ ε : Type) where
  | next (t : ThreadState σ ε)
  | exited (t : ThreadState σ ε)
  | stuck

/-- Models `self.error_producer.push(error).ok()`: push onto the error ring, drop
the error (and the push failure) when the ring is full. -/
def push_error {σ ε : Type} (t : ThreadState σ ε) (e : ε) : ThreadState σ ε :=
  if t.error_ring.length < t.error_capacity then
    { t with error_ring := t.error_ring ++ [e] }
  else t

/-- One iteration of the `loop` in `DecodeScheduler::start`: `Continue`
loops immediately, `Wait` sleeps ~1 ms then loops, `End` breaks out of the
thread, and an error is published (never blocking) before looping again. -/
def driver_step {σ ε : Type} (D : Decoder σ ε) (fuel : Nat) (t : ThreadState σ ε) :
    DriverStep σ ε :=
  match DecodeScheduler.run D fuel t.sched with
  | .ok .Continue s' => .next { t with sched := s' }
  | .ok .Wait s' => .next { t with sched := s' }
  | .ok .End s' => .exited { t with sched := s' }
  | .err e s' => .next (push_error { t with sched := s' } e)
  | .fuelOut => .stuck
  | .panicked => .stuck

/-- The scheduler state carried by a `Res` outcome. -/
def Res.state {σ ε α : Type} : Res σ ε α → SchedState σ
  | .err _ s => s
  | .ok _ s => s

open DecodeScheduler

/-- A benign demonstration decoder: one zero frame per chunk, exact seeks. -/
def demoDecoder : Decoder Unit Unit where
  sample_rate := 2
  num_frames := some 100
  decode := fun _ => ((), .ok [Frame.ZERO])
  seek := fun n _ => ((), .ok n)

/-- A decoder whose `decode` always fails. -/
def failingDecoder : Decoder Unit Unit where
  sample_rate := 2
  num_frames := some 100
  decode := fun _ => ((), .error ())
  seek := fun n _ => ((), .ok n)

def demoShared : Shared := { state := .Playing, position := 0, reached_end := false }

def demoTransport : Transport :=
  { position := 0, playing := true, playback_start := 0, playback_end := 100
    loop_region := none }

/-- A playing scheduler state with an empty ring and no pending commands. -/
def demoState : SchedState Unit :=
  { dstate := ()
    sample_rate := 2
    num_frames := some 100
    transport := demoTransport
    decoder_current_frame_index := 0
    decoded_chunk := none
    commands := []
    frame_ring := []
    shared := demoShared }

def demoStopped : SchedState Unit :=
  { demoState with shared := { demoShared with state := .Stopped } }

def demoFull : SchedState Unit :=
  { demoState with frame_ring := List.replicate BUFFER_SIZE ⟨Frame.ZERO, 0⟩ }

def demoDrained : SchedState Unit := { demoState with commands := [] }

def demoDecoded : SchedState Unit :=
  { demoDrained with
    decoder_current_frame_index := 1
    decoded_chunk := some ⟨0, [Frame.ZERO]⟩ }

def demoAfter : SchedState Unit :=
  { demoDecoded with
    frame_ring := [⟨Frame.ZERO, 0⟩]
    transport := { demoTransport with position := 1 } }

/-- A decoder whose `seek` always fails. -/
def seekFailDecoder : Decoder Unit Unit where
  sample_rate := 2
  num_frames := some 100
  decode := fun _ => ((), .ok [Frame.ZERO])
  seek := fun _ _ => ((), .error ())

/-- A state whose chunk cache covers frame 0. -/
def demoCached : SchedState Unit :=
  { demoState with
    decoder_current_frame_index := 1
    decoded_chunk := some ⟨0, [Frame.ZERO]⟩ }

/-- A state whose decoder cursor sits past the frame about to be requested. -/
def demoSeekState : SchedState Unit :=
  { demoState with decoder_current_frame_index := 5 }

def demoSettings : StreamingSoundSettings := ⟨⟨0, some 50⟩, none⟩

/-- A decoder that always decodes one non-empty chunk but whose `seek`
lands far past every requested index. -/
def hostileSeekDecoder : Decoder Unit Unit where
  sample_rate := 2
  num_frames := none
  decode := fun _ => ((), .ok [Frame.ZERO])
  seek := fun _ _ => ((), .ok 1000)

/-- A decoder that forever returns `Ok` with an empty frame vector. -/
def emptyDecoder : Decoder Unit Unit where
  sample_rate := 2
  num_frames := none
  decode := fun _ => ((), .ok [])
  seek := fun n _ => ((), .ok n)

/-- A state whose decoder cursor is past the frame about to be requested,
forcing the seek branch of `frame_at_index`. -/
def demoHighCursor : SchedState Unit :=
  { demoState with decoder_current_frame_index := 7 }

/-- Termination of `frame_at_index`: some fuel suffices for the decode loop
to produce an answer. -/
def frame_at_index_terminates {σ ε : Type} (D : Decoder σ ε) (index : Int)
    (s : SchedState σ) : Prop :=
  ∃ (fuel : Nat) (r : Res σ ε Frame), frame_at_index D fuel index s = some r

/-! ### Spatial listener mixer (`spatial/listener.rs`) -/

/-- glam's `Vec3` (`f32` components idealized as `ℝ`). -/
structure Vec3 where
  x : ℝ
  y : ℝ
  z : ℝ

namespace Vec3

def add (a b : Vec3) : Vec3 := ⟨a.x + b.x, a.y + b.y, a.z + b.z⟩

def sub (a b : Vec3) : Vec3 := ⟨a.x - b.x, a.y - b.y, a.z - b.z⟩

def smul (c : ℝ) (v : Vec3) : Vec3 := ⟨c * v.x, c * v.y, c * v.z⟩

def dot (a b : Vec3) : ℝ := a.x * b.x + a.y * b.y + a.z * b.z

def cross (a b : Vec3) : Vec3 :=
  ⟨a.y * b.z - a.z * b.y, a.z * b.x - a.x * b.z, a.x * b.y - a.y * b.x⟩

/-- glam's `Vec3::length`. -/
noncomputable def length (v : Vec3) : ℝ := Real.sqrt (v.dot v)

/-- glam's `Vec3::normalize_or_zero`: the unit vector in the same
direction, or zero when the vector has length zero. -/
noncomputable def normalize_or_zero (v : Vec3) : Vec3 :=
  if v.dot v = 0 then ⟨0, 0, 0⟩ else smul (1 / v.length) v

/-- The constant `Vec3::X`. -/
def X : Vec3 := ⟨1, 0, 0⟩

/-- The constant `Vec3::NEG_X`. -/
def NEG_X : Vec3 := ⟨-1, 0, 0⟩

end Vec3

/-- glam's `Quat` (`f32` components idealized as `ℝ`). -/
structure Quat where
  w : ℝ
  x : ℝ
  y : ℝ
  z : ℝ

/-- The imaginary part of a quaternion as a vector. -/
def Quat.xyz (q : Quat) : Vec3 := ⟨q.x, q.y, q.z⟩

/-- glam's `Quat * Vec3` rotation:
`v + 2 * cross(q.xyz, cross(q.xyz, v) + q.w * v)` (valid for unit
quaternions). -/
def Quat.rotate (q : Quat) (v : Vec3) : Vec3 :=
  Vec3.add v
    (Vec3.smul 2 (Vec3.cross q.xyz (Vec3.add (Vec3.cross q.xyz v) (Vec3.smul q.w v))))

/-- The squared norm `w² + x² + y² + z²` of a quaternion; a unit
orientation quaternion has `normSq = 1`. -/
def Quat.normSq (q : Quat) : ℝ := q.w * q.w + q.x * q.x + q.y * q.y + q.z * q.z

/-- Modelled from the spec: the emitter's distance range `(min, max)` with
`relative_distance(d) = clamp((d − min)/(max − min), 0, 1)` (the
`EmitterDistances` type lives outside the extracted sources). -/
structure EmitterDistances where
  min_distance : ℝ
  max_distance : ℝ

noncomputable def EmitterDistances.relative_distance (d : EmitterDistances) (distance : ℝ) : ℝ :=
  min 1 (max 0 ((distance - d.min_distance) / (d.max_distance - d.min_distance)))

/-- Modelled from the spec: an emitter — a positioned mono source with an
optional attenuation curve on `[0,1]`, a distance range, a spatialization
flag, and the output frame it produced this tick. -/
structure Emitter where
  position : Vec3
  attenuation_function : Option (ℝ → ℝ)
  distances : EmitterDistances
  enable_spatialization : Bool
  output : Frame

/-- Modelled from the spec: `Volume::MIN_DECIBELS`, the bottom of the
decibel range an attenuation value is mapped into. -/
def MIN_DECIBELS : ℝ := -60

/-- Modelled from the spec: conversion of decibels to linear amplitude,
`10^(db/20)`. -/
noncomputable def decibels_to_amplitude (db : ℝ) : ℝ := Real.rpow 10 (db / 20)

/-- Modelled from the spec: `Tweenable::lerp(Decibels(MIN_DECIBELS),
Decibels(0), t)` followed by `as_amplitude()`. -/
noncomputable def lerp_volume_amplitude (t : ℝ) : ℝ :=
  decibels_to_amplitude (MIN_DECIBELS + (0 - MIN_DECIBELS) * t)

/-- The constant `EAR_DISTANCE` (listener.rs line 19). -/
def EAR_DISTANCE : ℝ := 0.1

/-- The constant `MIN_EAR_AMPLITUDE` (listener.rs line 20). -/
def MIN_EAR_AMPLITUDE : ℝ := 0.5

/-- The `Listener`: position and orientation.  (The shared removal flag and
the output track id play no role in `process` and are omitted.) -/
structure Listener where
  position : Vec3
  orientation : Quat

namespace Listener

/-- The method `Listener::ear_positions`. -/
def ear_positions (l : Listener) : Vec3 × Vec3 :=
  (l.position.add (l.orientation.rotate (Vec3.smul EAR_DISTANCE Vec3.NEG_X)),
    l.position.add (l.orientation.rotate (Vec3.smul EAR_DISTANCE Vec3.X)))

/-- Source line `let left_ear_direction = self.orientation * Vec3::NEG_X`. -/
def left_ear_direction (l : Listener) : Vec3 := l.orientation.rotate Vec3.NEG_X

/-- Source line `let right_ear_direction = self.orientation * Vec3::X`. -/
def right_ear_direction (l : Listener) : Vec3 := l.orientation.rotate Vec3.X

/-- The quantity `left_ear_volume`: `(left_ear_direction ⬝ normalize_or_zero(emitter −
left_ear) + 1) / 2`. -/
noncomputable def left_ear_volume (l : Listener) (emitter_position : Vec3) : ℝ :=
  (l.left_ear_direction.dot ((emitter_position.sub l.ear_positions.1).normalize_or_zero)
    + 1) / 2

noncomputable def right_ear_volume (l : Listener) (emitter_position : Vec3) : ℝ :=
  (l.right_ear_direction.dot ((emitter_position.sub l.ear_positions.2).normalize_or_zero)
    + 1) / 2

/-- The multiplicative panning gain applied to the left channel:
`MIN_EAR_AMPLITUDE + (1 − MIN_EAR_AMPLITUDE) * left_ear_volume`. -/
noncomputable def left_pan_gain (l : Listener) (emitter_position : Vec3) : ℝ :=
  MIN_EAR_AMPLITUDE + (1 - MIN_EAR_AMPLITUDE) * l.left_ear_volume emitter_position

noncomputable def right_pan_gain (l : Listener) (emitter_position : Vec3) : ℝ :=
  MIN_EAR_AMPLITUDE + (1 - MIN_EAR_AMPLITUDE) * l.right_ear_volume emitter_position

/-- The volume-attenuation stage of `Listener::process` applied to one
emitter's output (the `if let Some(attenuation_function)` block). -/
noncomputable def attenuated_output (l : Listener) (e : Emitter) : Frame :=
  match e.attenuation_function with
  | some att =>
    let distance := (e.position.sub l.position).length
    let relative_distance := e.distances.relative_distance distance
    let relative_volume := att (1 - relative_distance)
    e.output.scale (lerp_volume_amplitude relative_volume)
  | none => e.output

/-- One emitter's contribution inside the `for` loop of
`Listener::process`: attenuation, then spatialized per-ear scaling. -/
noncomputable def emitter_contribution (l : Listener) (e : Emitter) : Frame :=
  let out := l.attenuated_output e
  if e.enable_spatialization then
    ⟨out.left * l.left_pan_gain e.position, out.right * l.right_pan_gain e.position⟩
  else out

/-- The method `Listener::process`: sum all emitter contributions into one stereo
frame, starting from `Frame::ZERO`.  The arena iteration is modelled as a
list of emitters. -/
noncomputable def process (l : Listener) (emitters : List Emitter) : Frame :=
  emitters.foldl (fun output e => output + l.emitter_contribution e) Frame.ZERO

end Listener

def demoListener : Listener := ⟨⟨0, 0, 0⟩, ⟨1, 0, 0, 0⟩⟩

def demoEmitterA : Emitter := ⟨⟨10, 0, 0⟩, none, ⟨1, 100⟩, true, ⟨1, 1⟩⟩

def demoEmitterB : Emitter := ⟨⟨0, 0, 5⟩, none, ⟨1, 100⟩, false, ⟨2, 3⟩⟩

namespace DecodeScheduler

variable {σ ε : Type}

/-- The decode loop touches only the decoder state, the decoder cursor and
the chunk cache: the frame ring, shared block, transport and pending
commands pass through untouched. -/
theorem decode_loop_preserves (D : Decoder σ ε) (index : Nat) :
    ∀ (fuel : Nat) (s : SchedState σ) (r : Res σ ε Frame),
      decode_loop D index fuel s = some r →
      r.state.frame_ring = s.frame_ring ∧ r.state.shared = s.shared ∧
        r.state.transport = s.transport ∧ r.state.commands = s.commands := by
  intro fuel
  induction fuel with
  | zero => intro s r h; simp [decode_loop] at h
  | succ n ih =>
    intro s r h
    rw [decode_loop] at h
    rcases hdec : D.decode s.dstate with ⟨d', rr⟩
    rw [hdec] at h
    cases rr with
    | error e =>
      simp only [Option.some.injEq] at h
      subst h
      exact ⟨rfl, rfl, rfl, rfl⟩
    | ok frames =>
      simp only at h
      split at h
      · simp only [Option.some.injEq] at h
        subst h
        exact ⟨rfl, rfl, rfl, rfl⟩
      · have := ih _ _ h
        exact this

/-- Lookup `frame_at_index` likewise leaves the frame ring, shared block, transport
and pending commands untouched. -/
theorem frame_at_index_preserves (D : Decoder σ ε) (fuel : Nat) (index : Int)
    (s : SchedState σ) (r : Res σ ε Frame)
    (h : frame_at_index D fuel index s = some r) :
    r.state.frame_ring = s.frame_ring ∧ r.state.shared = s.shared ∧
      r.state.transport = s.transport ∧ r.state.commands = s.commands := by
  rw [frame_at_index] at h
  split at h
  · simp only [Option.some.injEq] at h
    subst h
    exact ⟨rfl, rfl, rfl, rfl⟩
  · split at h
    · simp only [Option.some.injEq] at h
      subst h
      exact ⟨rfl, rfl, rfl, rfl⟩
    · split at h
      · rcases hseek : D.seek index.toNat s.dstate with ⟨d', rr⟩
        rw [hseek] at h
        cases rr with
        | error e =>
          simp only [Option.some.injEq] at h
          subst h
          exact ⟨rfl, rfl, rfl, rfl⟩
        | ok n =>
          have := decode_loop_preserves D _ _ _ _ h
          exact this
      · exact decode_loop_preserves D _ _ _ _ h

/-- Seeking via `seek_to_index` touches only the transport, the decoder state and the
decoder cursor. -/
theorem seek_to_index_preserves (D : Decoder σ ε) (index : Int) (s : SchedState σ) :
    (seek_to_index D index s).state.frame_ring = s.frame_ring ∧
      (seek_to_index D index s).state.shared = s.shared ∧
      (seek_to_index D index s).state.commands = s.commands := by
  rw [seek_to_index]
  rcases hseek : D.seek (if index < 0 then 0 else index.toNat) s.dstate with ⟨d', rr⟩
  cases rr with
  | error e => exact ⟨rfl, rfl, rfl⟩
  | ok n => exact ⟨rfl, rfl, rfl⟩

/-- Command handling never touches the frame ring or the shared block, and
never touches the pending-commands field it is given. -/
theorem handle_command_preserves (D : Decoder σ ε) (c : DecodeSchedulerCommand)
    (s : SchedState σ) :
    (handle_command D c s).state.frame_ring = s.frame_ring ∧
      (handle_command D c s).state.shared = s.shared ∧
      (handle_command D c s).state.commands = s.commands := by
  cases c with
  | SetPlaybackRegion r => exact ⟨rfl, rfl, rfl⟩
  | SetLoopRegion r => exact ⟨rfl, rfl, rfl⟩
  | SeekBy amount => exact seek_to_index_preserves D _ s
  | SeekTo position => exact seek_to_index_preserves D _ s

/-- Draining the command ring never touches the frame ring or the shared
block. -/
theorem drain_loop_preserves (D : Decoder σ ε) :
    ∀ (cs : List DecodeSchedulerCommand) (s : SchedState σ),
      (drain_loop D cs s).state.frame_ring = s.frame_ring ∧
        (drain_loop D cs s).state.shared = s.shared := by
  intro cs
  induction cs with
  | nil => intro s; exact ⟨rfl, rfl⟩
  | cons c cs ih =>
    intro s
    rw [drain_loop]
    cases hc : handle_command D c { s with commands := cs } with
    | err e s' =>
      have h1 := handle_command_preserves D c { s with commands := cs }
      rw [hc] at h1
      exact ⟨h1.1, h1.2.1⟩
    | ok a s' =>
      have h1 := handle_command_preserves D c { s with commands := cs }
      rw [hc] at h1
      have h2 := ih s'
      exact ⟨h2.1.trans h1.1, h2.2.trans h1.2.1⟩

/-- A successful drain either consumed commands down to the empty list or
consumed nothing because there was nothing to consume. -/
theorem drain_loop_ok_commands (D : Decoder σ ε) :
    ∀ (cs : List DecodeSchedulerCommand) (s : SchedState σ) (s' : SchedState σ),
      drain_loop D cs s = .ok () s' → s'.commands = [] ∨ (cs = [] ∧ s' = s) := by
  intro cs
  induction cs with
  | nil =>
    intro s s' h
    rw [drain_loop] at h
    cases h
    exact Or.inr ⟨rfl, rfl⟩
  | cons c cs ih =>
    intro s s' h
    rw [drain_loop] at h
    cases hc : handle_command D c { s with commands := cs } with
    | err e s'' => rw [hc] at h; cases h
    | ok a s'' =>
      rw [hc] at h
      have hcmd := (handle_command_preserves D c { s with commands := cs }).2.2
      rw [hc] at hcmd
      rcases ih s'' s' h with h1 | ⟨hnil, hss⟩
      · exact Or.inl h1
      · subst hss
        subst hnil
        exact Or.inl hcmd

end DecodeScheduler

/-- C1: every `run` step follows the spec's order — on `Stopped` it returns
`End` untouched (no command drain, no frame push); with a full frame ring it
returns `Wait` with no side effects; otherwise it drains all pending
commands, pushes exactly one timestamped frame indexed by the pre-increment
transport position, increments the transport, and returns `End` (setting
`reached_end`) when the transport stopped playing, else `Continue`. -/
theorem C1_run_step_order {σ ε : Type} :
    (∀ (D : Decoder σ ε) (fuel : Nat) (s : SchedState σ),
      s.shared.state = PlaybackState.Stopped →
      run D fuel s = .ok .End s) ∧
    (∀ (D : Decoder σ ε) (fuel : Nat) (s : SchedState σ),
      s.shared.state ≠ PlaybackState.Stopped →
      BUFFER_SIZE ≤ s.frame_ring.length →
      run D fuel s = .ok .Wait s) ∧
    (∀ (D : Decoder σ ε) (fuel : Nat) (s s1 s2 : SchedState σ) (f : Frame),
      s.shared.state ≠ PlaybackState.Stopped →
      s.frame_ring.length < BUFFER_SIZE →
      drain_loop D s.commands { s with commands := [] } = .ok () s1 →
      frame_at_index D fuel s1.transport.position s1 = some (.ok f s2) →
      s1.commands = [] ∧
        run D fuel s =
          (if (s2.transport.increment_position).playing then
            .ok .Continue
              { s2 with
                frame_ring := s2.frame_ring ++ [⟨f, s2.transport.position⟩]
                transport := s2.transport.increment_position }
          else
            .ok .End
              { s2 with
                frame_ring := s2.frame_ring ++ [⟨f, s2.transport.position⟩]
                transport := s2.transport.increment_position
                shared := { s2.shared with reached_end := true } })) := by
  refine ⟨?_, ?_, ?_⟩
  · intro D fuel s h
    rw [run, if_pos h]
  · intro D fuel s hstate hfull
    rw [run, if_neg hstate, if_pos hfull]
  · intro D fuel s s1 s2 f hstate hring hdrain hframe
    have hd := drain_loop_preserves D s.commands { s with commands := [] }
    rw [hdrain] at hd
    have hd1 : s1.frame_ring = s.frame_ring := hd.1
    have hf1 : s2.frame_ring = s1.frame_ring :=
      (frame_at_index_preserves D fuel s1.transport.position s1 _ hframe).1
    refine ⟨?_, ?_⟩
    · rcases drain_loop_ok_commands D s.commands _ s1 hdrain with h | ⟨_, h2⟩
      · exact h
      · rw [h2]
    · have hnotfull : ¬ BUFFER_SIZE ≤ s2.frame_ring.length := by
        rw [hf1, hd1]; exact not_le.mpr hring
      rw [run, if_neg hstate, if_neg (not_le.mpr hring)]
      split
      · rename_i e s' heq
        rw [hdrain] at heq
        cases heq
      · rename_i a s1' heq
        rw [hdrain] at heq
        cases heq
        split
        · rename_i heq2
          rw [hframe] at heq2
          cases heq2
        · rename_i e s2' heq2
          rw [hframe] at heq2
          simp only [Option.some.injEq] at heq2
          cases heq2
        · rename_i f' s2' heq2
          rw [hframe] at heq2
          simp only [Option.some.injEq, Res.ok.injEq] at heq2
          obtain ⟨hfe, hse⟩ := heq2
          subst hfe
          subst hse
          rw [if_neg hnotfull]

/-- Witness for C1 at concrete states: a stopped state, a full ring, and a
normal productive step. -/
theorem C1_run_step_order_witness :
    run demoDecoder 1 demoStopped = .ok .End demoStopped ∧
      run demoDecoder 1 demoFull = .ok .Wait demoFull ∧
      (demoDrained.commands = [] ∧
        run demoDecoder 1 demoState = .ok .Continue demoAfter) :=
  ⟨C1_run_step_order.1 demoDecoder 1 demoStopped (by decide),
    C1_run_step_order.2.1 demoDecoder 1 demoFull (by decide)
      (by
        show BUFFER_SIZE ≤ (List.replicate BUFFER_SIZE (⟨Frame.ZERO, 0⟩ : TimestampedFrame)).length
        rw [List.length_replicate]),
    C1_run_step_order.2.2 demoDecoder 1 demoState demoDrained demoDecoded Frame.ZERO
      (by decide) (by decide) rfl rfl⟩

/-- C4: the frame push inside `run` can never hit its failure branch — the
command drain between the ring-full check and the push leaves the ring
untouched, so the `expect` is unreachable and no `run` outcome is a panic. -/
theorem C4_frame_push_never_fails {σ ε : Type} (D : Decoder σ ε) (fuel : Nat)
    (s : SchedState σ) : (run D fuel s).isPanicked = false := by
  rw [run]
  split
  · rfl
  · split
    · rfl
    · rename_i hstate hfull
      split
      · rfl
      · rename_i a s1 hdrain
        split
        · rfl
        · rfl
        · rename_i f s2 hframe
          have hf1 : s2.frame_ring = s1.frame_ring :=
            (frame_at_index_preserves D fuel s1.transport.position s1 _ hframe).1
          have hd := drain_loop_preserves D s.commands { s with commands := [] }
          rw [hdrain] at hd
          have hd1 : s1.frame_ring = s.frame_ring := hd.1
          have hnotfull : ¬ BUFFER_SIZE ≤ s2.frame_ring.length := by
            rw [hf1, hd1]; exact hfull
          rw [if_neg hnotfull]
          dsimp only
          split <;> rfl

/-- C7: when `run` returns a decoder error the thread loop publishes the
error onto the error ring without blocking (appending when there is room,
dropping it when the ring is full) and keeps looping; the thread exits only
on the `End` result. -/
theorem C7_error_ring_policy {σ ε : Type} :
    (∀ (D : Decoder σ ε) (fuel : Nat) (t : ThreadState σ ε) (e : ε) (s' : SchedState σ),
      run D fuel t.sched = .err e s' →
      driver_step D fuel t = .next (push_error { t with sched := s' } e)) ∧
    (∀ (t : ThreadState σ ε) (e : ε),
      (t.error_ring.length < t.error_capacity →
        push_error t e = { t with error_ring := t.error_ring ++ [e] }) ∧
      (t.error_capacity ≤ t.error_ring.length → push_error t e = t)) ∧
    (∀ (D : Decoder σ ε) (fuel : Nat) (t t' : ThreadState σ ε),
      driver_step D fuel t = .exited t' →
      ∃ s', run D fuel t.sched = .ok .End s' ∧ t' = { t with sched := s' }) := by
  refine ⟨?_, ?_, ?_⟩
  · intro D fuel t e s' h
    rw [driver_step, h]
  · intro t e
    constructor
    · intro h
      rw [push_error, if_pos h]
    · intro h
      rw [push_error, if_neg (not_lt.mpr h)]
  · intro D fuel t t' h
    rw [driver_step] at h
    cases hrun : run D fuel t.sched with
    | fuelOut => rw [hrun] at h; cases h
    | panicked => rw [hrun] at h; cases h
    | err e s' => rw [hrun] at h; cases h
    | ok step s' =>
      rw [hrun] at h
      cases step with
      | Continue => cases h
      | Wait => cases h
      | End =>
        cases h
        exact ⟨s', rfl, rfl⟩

/-- Witness for C7: a failing decoder's error is appended to an empty error
ring and the loop continues; a stopped sound exits the loop via `End`. -/
theorem C7_error_ring_policy_witness :
    driver_step failingDecoder 1 ⟨demoState, [], 1⟩ =
        .next (push_error ⟨demoDrained, [], 1⟩ ()) ∧
      push_error (⟨demoState, [], 1⟩ : ThreadState Unit Unit) () = ⟨demoState, [()], 1⟩ ∧
      push_error (⟨demoState, [()], 1⟩ : ThreadState Unit Unit) () = ⟨demoState, [()], 1⟩ ∧
      (∃ s', run failingDecoder 1 demoStopped = .ok .End s' ∧
        (⟨demoStopped, [], 1⟩ : ThreadState Unit Unit) = ⟨s', [], 1⟩) :=
  ⟨C7_error_ring_policy.1 failingDecoder 1 ⟨demoState, [], 1⟩ () demoDrained rfl,
    (C7_error_ring_policy.2.1 (⟨demoState, [], 1⟩ : ThreadState Unit Unit) ()).1 (by decide),
    (C7_error_ring_policy.2.1 (⟨demoState, [()], 1⟩ : ThreadState Unit Unit) ()).2 (by decide),
    C7_error_ring_policy.2.2 failingDecoder 1 ⟨demoStopped, [], 1⟩ ⟨demoStopped, [], 1⟩ rfl⟩

/-- C2: `frame_at_index` — a negative index yields `Frame::ZERO` without
touching the scheduler or the decoder; a cached chunk covering the index
answers from the cache untouched; on a cache miss the decoder is seeked
exactly when the index precedes the decoder cursor, the cursor taking the
value `seek` returned; then chunks are decoded in a loop, each replacing the
cache at the current cursor and advancing the cursor by its length, until
the cache covers the index; decoder errors propagate. -/
theorem C2_frame_at_index_contract {σ ε : Type} :
    (∀ (D : Decoder σ ε) (fuel : Nat) (index : Int) (s : SchedState σ),
      index < 0 → frame_at_index D fuel index s = some (.ok Frame.ZERO s)) ∧
    (∀ (D : Decoder σ ε) (fuel : Nat) (index : Int) (s : SchedState σ)
      (c : DecodedChunk) (f : Frame),
      0 ≤ index → s.decoded_chunk = some c → c.frame_at_index index.toNat = some f →
      frame_at_index D fuel index s = some (.ok f s)) ∧
    (∀ (c : DecodedChunk) (i : Nat),
      c.start_index ≤ i →
      c.frame_at_index i = c.frames.get? (i - c.start_index)) ∧
    (∀ (D : Decoder σ ε) (fuel : Nat) (index : Int) (s : SchedState σ),
      0 ≤ index →
      (s.decoded_chunk.bind fun c => c.frame_at_index index.toNat) = none →
      index.toNat < s.decoder_current_frame_index →
      frame_at_index D fuel index s =
        (match D.seek index.toNat s.dstate with
        | (d', .error e) => some (.err e { s with dstate := d' })
        | (d', .ok n) =>
          decode_loop D index.toNat fuel
            { s with dstate := d', decoder_current_frame_index := n })) ∧
    (∀ (D : Decoder σ ε) (fuel : Nat) (index : Int) (s : SchedState σ),
      0 ≤ index →
      (s.decoded_chunk.bind fun c => c.frame_at_index index.toNat) = none →
      s.decoder_current_frame_index ≤ index.toNat →
      frame_at_index D fuel index s = decode_loop D index.toNat fuel s) ∧
    (∀ (D : Decoder σ ε) (i : Nat) (fuel : Nat) (s : SchedState σ),
      decode_loop D i (fuel + 1) s =
        (match D.decode s.dstate with
        | (d', .error e) => some (.err e { s with dstate := d' })
        | (d', .ok frames) =>
          match (DecodedChunk.mk s.decoder_current_frame_index frames).frame_at_index i with
          | some f =>
            some (.ok f
              { s with
                dstate := d'
                decoder_current_frame_index := s.decoder_current_frame_index + frames.length
                decoded_chunk := some ⟨s.decoder_current_frame_index, frames⟩ })
          | none =>
            decode_loop D i fuel
              { s with
                dstate := d'
                decoder_current_frame_index := s.decoder_current_frame_index + frames.length
                decoded_chunk := some ⟨s.decoder_current_frame_index, frames⟩ })) := by
  refine ⟨?_, ?_, ?_, ?_, ?_, ?_⟩
  · intro D fuel index s h
    rw [frame_at_index, if_pos h]
  · intro D fuel index s c f h0 hc hf
    rw [frame_at_index, if_neg (not_lt.mpr h0)]
    rw [hc]
    simp only [Option.some_bind, hf]
  · intro c i h
    rw [DecodedChunk.frame_at_index, if_neg (not_lt.mpr h)]
  · intro D fuel index s h0 hmiss hlt
    rw [frame_at_index, if_neg (not_lt.mpr h0), hmiss]
    rw [if_pos hlt]
    rcases hs : D.seek index.toNat s.dstate with ⟨d', r⟩
    cases r <;> rfl
  · intro D fuel index s h0 hmiss hge
    rw [frame_at_index, if_neg (not_lt.mpr h0), hmiss]
    rw [if_neg (not_lt.mpr hge)]
  · intro D i fuel s
    rw [decode_loop]
    rcases hd : D.decode s.dstate with ⟨d', r⟩
    cases r with
    | error e => rfl
    | ok frames => dsimp only

/-- Witness for C2: the negative-index, cache-hit, seek-then-decode and
straight-decode branches at concrete scheduler states. -/
theorem C2_frame_at_index_contract_witness :
    frame_at_index demoDecoder 1 (-1) demoState = some (.ok Frame.ZERO demoState) ∧
      frame_at_index demoDecoder 1 0 demoCached = some (.ok Frame.ZERO demoCached) ∧
      (⟨0, [Frame.ZERO]⟩ : DecodedChunk).frame_at_index 0 = [Frame.ZERO].get? 0 ∧
      frame_at_index demoDecoder 1 0 demoSeekState = some (.ok Frame.ZERO demoDecoded) ∧
      frame_at_index demoDecoder 1 0 demoState = decode_loop demoDecoder 0 1 demoState :=
  ⟨(@C2_frame_at_index_contract Unit Unit).1 demoDecoder 1 (-1) demoState (by decide),
    (@C2_frame_at_index_contract Unit Unit).2.1 demoDecoder 1 0 demoCached
      ⟨0, [Frame.ZERO]⟩ Frame.ZERO (by decide) rfl rfl,
    (@C2_frame_at_index_contract Unit Unit).2.2.1 ⟨0, [Frame.ZERO]⟩ 0 (by decide),
    (@C2_frame_at_index_contract Unit Unit).2.2.2.1 demoDecoder 1 0 demoSeekState
      (by decide) rfl (by decide),
    (@C2_frame_at_index_contract Unit Unit).2.2.2.2.1 demoDecoder 1 0 demoState
      (by decide) rfl (by decide)⟩

/-- C3: `seek_to` rounds `seconds × sample_rate` to an `i64` and defers to
`seek_to_index`, which seeks the transport to that index and then seeks the
decoder to the index clamped to 0 when negative, storing the index the
decoder landed on as the new cursor; `seek_by` is exactly `seek_to` of the
shared position plus the delta. -/
theorem C3_seek_translation {σ ε : Type} :
    (∀ (D : Decoder σ ε) (position : ℚ) (s : SchedState σ),
      seek_to D position s =
        seek_to_index D (as_i64 (f64_round (position * s.sample_rate))) s) ∧
    (∀ (D : Decoder σ ε) (index : Int) (s : SchedState σ) (d' : σ) (n : Nat),
      D.seek (if index < 0 then 0 else index.toNat) s.dstate = (d', .ok n) →
      seek_to_index D index s =
        .ok ()
          { s with
            transport := s.transport.seek_to index
            dstate := d'
            decoder_current_frame_index := n }) ∧
    (∀ (D : Decoder σ ε) (index : Int) (s : SchedState σ) (d' : σ) (e : ε),
      D.seek (if index < 0 then 0 else index.toNat) s.dstate = (d', .error e) →
      seek_to_index D index s =
        .err e { s with transport := s.transport.seek_to index, dstate := d' }) ∧
    (∀ (D : Decoder σ ε) (amount : ℚ) (s : SchedState σ),
      seek_by D amount s = seek_to D (s.shared.position + amount) s) := by
  refine ⟨?_, ?_, ?_, ?_⟩
  · intro D position s
    rfl
  · intro D index s d' n h
    rw [seek_to_index, h]
  · intro D index s d' e h
    rw [seek_to_index, h]
  · intro D amount s
    rfl

/-- Witness for C3 at concrete inputs: a successful seek to frame 4 and a
failing decoder seek. -/
theorem C3_seek_translation_witness :
    seek_to demoDecoder 2 demoState = seek_to_index demoDecoder (as_i64 (f64_round (2 * 2))) demoState ∧
      seek_to_index demoDecoder 4 demoState =
        .ok ()
          { demoState with
            transport := { demoTransport with position := 4 }
            decoder_current_frame_index := 4 } ∧
      seek_to_index seekFailDecoder 4 demoState =
        .err () { demoState with transport := { demoTransport with position := 4 } } ∧
      seek_by demoDecoder 2 demoState = seek_to demoDecoder (0 + 2) demoState :=
  ⟨C3_seek_translation.1 demoDecoder 2 demoState,
    C3_seek_translation.2.1 demoDecoder 4 demoState () 4 rfl,
    C3_seek_translation.2.2.1 seekFailDecoder 4 demoState () () rfl,
    C3_seek_translation.2.2.2 demoDecoder 2 demoState⟩

/-- C5: construction always seeds the brand-new frame ring with exactly one
`TimestampedFrame{ZERO, 0}`, whatever the settings (in particular for
playback regions starting after frame 0). -/
theorem C5_preseeded_zero_frame {σ ε : Type} (D : Decoder σ ε)
    (settings : StreamingSoundSettings) (shared : Shared)
    (commands : List DecodeSchedulerCommand) (d0 : σ) :
    ∃ s : SchedState σ, new D settings shared commands d0 = .ok s ∧
      s.frame_ring = [⟨Frame.ZERO, 0⟩] :=
  ⟨_, rfl, rfl⟩

/-- C6 (amended): `DecodeScheduler::new` never returns an error — it does
not decode during construction, and `sample_rate`/`num_frames` are
infallible, so the `Result` it returns is always `Ok`. -/
theorem C6_new_always_ok {σ ε : Type} (D : Decoder σ ε)
    (settings : StreamingSoundSettings) (shared : Shared)
    (commands : List DecodeSchedulerCommand) (d0 : σ) :
    ∃ s : SchedState σ, new D settings shared commands d0 = .ok s :=
  ⟨_, rfl⟩

/-- Counterexample for C6 as stated: at a concrete decoder and settings,
construction succeeds — the claimed synchronous construction failure cannot
be exhibited because `new` has no failing path. -/
theorem C6_new_always_ok_counterexample :
    (new demoDecoder demoSettings demoShared [] ()).toOption.isSome = true := rfl

/-- Once the decoder cursor has been pushed past the requested index, the
hostile decoder's non-empty chunks never cover it and the loop never
answers. -/
theorem hostile_decode_loop_diverges (i : Nat) :
    ∀ (fuel : Nat) (s : SchedState Unit),
      i < s.decoder_current_frame_index →
      decode_loop hostileSeekDecoder i fuel s = none := by
  intro fuel
  induction fuel with
  | zero => intro s _; rfl
  | succ n ih =>
    intro s hlt
    rw [decode_loop]
    dsimp only [hostileSeekDecoder]
    rw [DecodedChunk.frame_at_index, if_pos hlt]
    exact ih _ (by show i < s.decoder_current_frame_index + 1; omega)

/-- Counterexample for C10 as stated: the hostile decoder satisfies the
claim's precondition (every decode is a non-empty chunk), the requested
index 5 is non-negative, and yet `frame_at_index` never terminates, because
the decoder's `seek` landed past the requested index. -/
theorem C10_counterexample :
    ¬ frame_at_index_terminates hostileSeekDecoder 5 demoHighCursor := by
  rintro ⟨fuel, r, h⟩
  have key : frame_at_index hostileSeekDecoder fuel 5 demoHighCursor =
      decode_loop hostileSeekDecoder 5 fuel
        { demoHighCursor with decoder_current_frame_index := 1000 } := rfl
  rw [key, hostile_decode_loop_diverges 5 fuel _ (by decide)] at h
  cases h

/-- With non-empty chunks and a cursor at or before the requested index,
enough fuel makes the decode loop answer. -/
theorem decode_loop_terminates {σ ε : Type} (D : Decoder σ ε)
    (hdec : ∀ d frames d', D.decode d = (d', .ok frames) → frames ≠ [])
    (i : Nat) :
    ∀ (fuel : Nat) (s : SchedState σ),
      s.decoder_current_frame_index ≤ i →
      i < s.decoder_current_frame_index + fuel →
      ∃ r, decode_loop D i fuel s = some r := by
  intro fuel
  induction fuel with
  | zero => intro s hle hlt; omega
  | succ n ih =>
    intro s hle hlt
    rw [decode_loop]
    rcases hd : D.decode s.dstate with ⟨d', r⟩
    cases r with
    | error e => exact ⟨_, rfl⟩
    | ok frames =>
      dsimp only
      cases hcf : (DecodedChunk.mk s.decoder_current_frame_index frames).frame_at_index i with
      | some f => exact ⟨_, rfl⟩
      | none =>
        have hne := hdec _ _ _ hd
        have hlen : 1 ≤ frames.length := by
          cases frames with
          | nil => exact absurd rfl hne
          | cons a l => simp
        have hcov : s.decoder_current_frame_index + frames.length ≤ i := by
          rw [DecodedChunk.frame_at_index, if_neg (not_lt.mpr hle)] at hcf
          have := List.get?_eq_none.mp hcf
          dsimp only at this
          omega
        exact ih _ (show s.decoder_current_frame_index + frames.length ≤ i from hcov)
          (show i < s.decoder_current_frame_index + frames.length + n by omega)

/-- C10 (amended): for every non-negative index, `frame_at_index`
terminates provided every decode yields an error or a non-empty chunk AND
every decoder seek lands at or before the requested index; and with a
decoder that forever returns `Ok` with an empty vector the inner decode
loop never terminates. -/
theorem C10_frame_lookup_termination {σ ε : Type} :
    (∀ (D : Decoder σ ε) (index : Int) (s : SchedState σ),
      (∀ d frames d', D.decode d = (d', .ok frames) → frames ≠ []) →
      (∀ j d d' n, D.seek j d = (d', .ok n) → n ≤ j) →
      0 ≤ index → frame_at_index_terminates D index s) ∧
    (∀ (i fuel : Nat) (s : SchedState Unit),
      decode_loop emptyDecoder i fuel s = none) := by
  constructor
  · intro D index s hdec hseek h0
    rcases hc : s.decoded_chunk.bind fun c => c.frame_at_index index.toNat with _ | f
    · by_cases hlt : index.toNat < s.decoder_current_frame_index
      · rcases hs : D.seek index.toNat s.dstate with ⟨d', r⟩
        cases r with
        | error e =>
          refine ⟨1, .err e { s with dstate := d' }, ?_⟩
          rw [frame_at_index, if_neg (not_lt.mpr h0), hc, if_pos hlt, hs]
        | ok n =>
          have hn : n ≤ index.toNat := hseek _ _ _ _ hs
          obtain ⟨r, hr⟩ :=
            decode_loop_terminates D hdec index.toNat (index.toNat - n + 1)
              { s with dstate := d', decoder_current_frame_index := n }
              (show n ≤ index.toNat from hn)
              (show index.toNat < n + (index.toNat - n + 1) by omega)
          refine ⟨index.toNat - n + 1, r, ?_⟩
          rw [frame_at_index, if_neg (not_lt.mpr h0), hc, if_pos hlt, hs]
          exact hr
      · obtain ⟨r, hr⟩ :=
          decode_loop_terminates D hdec index.toNat
            (index.toNat - s.decoder_current_frame_index + 1) s (not_lt.mp hlt)
            (by omega)
        refine ⟨index.toNat - s.decoder_current_frame_index + 1, r, ?_⟩
        rw [frame_at_index, if_neg (not_lt.mpr h0), hc, if_neg hlt]
        exact hr
    · exact ⟨0, .ok f s, by rw [frame_at_index, if_neg (not_lt.mpr h0), hc]⟩
  · intro i fuel
    induction fuel with
    | zero => intro s; rfl
    | succ n ih =>
      intro s
      rw [decode_loop]
      dsimp only [emptyDecoder]
      rw [DecodedChunk.frame_at_index]
      by_cases hp : i < s.decoder_current_frame_index
      · rw [if_pos hp]
        exact ih _
      · rw [if_neg hp]
        exact ih _

/-- Witness for C10 (amended): the benign demonstration decoder satisfies
both side conditions, and lookup of frame 5 from the initial state
terminates; the empty decoder's loop yields no answer at fuel 3. -/
theorem C10_frame_lookup_termination_witness :
    frame_at_index_terminates demoDecoder 5 demoState ∧
      decode_loop emptyDecoder 5 3 demoState = none :=
  ⟨(@C10_frame_lookup_termination Unit Unit).1 demoDecoder 5 demoState
      (fun d frames d' h => by cases h; simp)
      (fun j d d' n h => by cases h; exact Nat.le_refl j)
      (by decide),
    (@C10_frame_lookup_termination Unit Unit).2 5 3 demoState⟩

/-- Lagrange/Cauchy–Schwarz for explicit 3-vectors. -/
theorem dot_sq_le_dot_mul_dot (u v : Vec3) :
    (u.dot v) ^ 2 ≤ (u.dot u) * (v.dot v) := by
  simp only [Vec3.dot]
  nlinarith [sq_nonneg (u.x * v.y - u.y * v.x), sq_nonneg (u.x * v.z - u.z * v.x),
    sq_nonneg (u.y * v.z - u.z * v.y)]

/-- Dotting a unit vector with a normalized-or-zero vector stays within
`[-1, 1]`. -/
theorem dot_normalize_or_zero_bound (u v : Vec3) (hu : u.dot u = 1) :
    -1 ≤ u.dot v.normalize_or_zero ∧ u.dot v.normalize_or_zero ≤ 1 := by
  rw [Vec3.normalize_or_zero]
  split_ifs with h
  · have hz : u.dot ⟨0, 0, 0⟩ = 0 := by simp [Vec3.dot]
    rw [hz]
    constructor <;> norm_num
  · have hnn : 0 ≤ v.dot v := by
      simp only [Vec3.dot]
      nlinarith [sq_nonneg v.x, sq_nonneg v.y, sq_nonneg v.z]
    have hpos : 0 < v.dot v := lt_of_le_of_ne hnn (Ne.symm h)
    have hd : u.dot (Vec3.smul (1 / v.length) v) = (u.dot v) / Real.sqrt (v.dot v) := by
      simp only [Vec3.dot, Vec3.smul, Vec3.length]
      ring
    rw [hd]
    have hcs := dot_sq_le_dot_mul_dot u v
    rw [hu, one_mul] at hcs
    have hsq : ((u.dot v) / Real.sqrt (v.dot v)) ^ 2 ≤ 1 := by
      rw [div_pow, Real.sq_sqrt hnn]
      exact (div_le_one hpos).mpr hcs
    constructor <;>
      nlinarith [hsq, sq_nonneg ((u.dot v) / Real.sqrt (v.dot v) + 1),
        sq_nonneg ((u.dot v) / Real.sqrt (v.dot v) - 1)]

/-- Rotating `X` by a unit quaternion yields a unit vector. -/
theorem rotate_X_unit (q : Quat) (h : q.normSq = 1) :
    (q.rotate Vec3.X).dot (q.rotate Vec3.X) = 1 := by
  simp only [Quat.rotate, Quat.xyz, Quat.normSq, Vec3.X, Vec3.add, Vec3.smul,
    Vec3.cross, Vec3.dot] at h ⊢
  linear_combination (4 * (q.y * q.y + q.z * q.z)) * h

/-- Rotating `NEG_X` by a unit quaternion yields a unit vector. -/
theorem rotate_NEG_X_unit (q : Quat) (h : q.normSq = 1) :
    (q.rotate Vec3.NEG_X).dot (q.rotate Vec3.NEG_X) = 1 := by
  simp only [Quat.rotate, Quat.xyz, Quat.normSq, Vec3.NEG_X, Vec3.add, Vec3.smul,
    Vec3.cross, Vec3.dot] at h ⊢
  linear_combination (4 * (q.y * q.y + q.z * q.z)) * h

/-- C8: for a spatialized emitter, each channel is multiplied by the gain
`MIN_EAR_AMPLITUDE + (1 − MIN_EAR_AMPLITUDE) · v` where
`v = (ear_dir ⬝ normalize_or_zero(emitter − ear)) + 1) / 2`, and for every
listener position, unit orientation quaternion and emitter position —
including an emitter exactly at an ear, where the normalized direction is
zero — the gain lies in `[MIN_EAR_AMPLITUDE, 1]`. -/
theorem C8_panning_gain_formula_and_bounds :
    (∀ (l : Listener) (p : Vec3),
      l.left_pan_gain p =
        MIN_EAR_AMPLITUDE + (1 - MIN_EAR_AMPLITUDE) *
          ((l.left_ear_direction.dot ((p.sub l.ear_positions.1).normalize_or_zero) + 1) / 2) ∧
      l.right_pan_gain p =
        MIN_EAR_AMPLITUDE + (1 - MIN_EAR_AMPLITUDE) *
          ((l.right_ear_direction.dot ((p.sub l.ear_positions.2).normalize_or_zero) + 1) / 2)) ∧
    (∀ (l : Listener) (e : Emitter),
      e.enable_spatialization = true →
      l.emitter_contribution e =
        ⟨(l.attenuated_output e).left * l.left_pan_gain e.position,
          (l.attenuated_output e).right * l.right_pan_gain e.position⟩) ∧
    (∀ (l : Listener) (p : Vec3),
      l.orientation.normSq = 1 →
      MIN_EAR_AMPLITUDE ≤ l.left_pan_gain p ∧ l.left_pan_gain p ≤ 1 ∧
        MIN_EAR_AMPLITUDE ≤ l.right_pan_gain p ∧ l.right_pan_gain p ≤ 1) := by
  refine ⟨fun l p => ⟨rfl, rfl⟩, ?_, ?_⟩
  · intro l e h
    rw [Listener.emitter_contribution, h]
    rfl
  · intro l p hq
    have hldir := rotate_NEG_X_unit l.orientation hq
    have hrdir := rotate_X_unit l.orientation hq
    obtain ⟨hl1, hl2⟩ :=
      dot_normalize_or_zero_bound l.left_ear_direction (p.sub l.ear_positions.1) hldir
    obtain ⟨hr1, hr2⟩ :=
      dot_normalize_or_zero_bound l.right_ear_direction (p.sub l.ear_positions.2) hrdir
    refine ⟨?_, ?_, ?_, ?_⟩ <;>
      simp only [Listener.left_pan_gain, Listener.right_pan_gain,
        Listener.left_ear_volume, Listener.right_ear_volume, MIN_EAR_AMPLITUDE] <;>
      linarith

/-- Witness for C8 at the identity orientation and an emitter on the
positive x axis. -/
theorem C8_panning_gain_witness :
    (demoListener.left_pan_gain ⟨10, 0, 0⟩ =
        MIN_EAR_AMPLITUDE + (1 - MIN_EAR_AMPLITUDE) *
          ((demoListener.left_ear_direction.dot
              (((Vec3.mk 10 0 0).sub demoListener.ear_positions.1).normalize_or_zero) + 1) / 2)) ∧
      demoListener.emitter_contribution demoEmitterA =
        ⟨(demoListener.attenuated_output demoEmitterA).left *
            demoListener.left_pan_gain demoEmitterA.position,
          (demoListener.attenuated_output demoEmitterA).right *
            demoListener.right_pan_gain demoEmitterA.position⟩ ∧
      (MIN_EAR_AMPLITUDE ≤ demoListener.left_pan_gain ⟨10, 0, 0⟩ ∧
        demoListener.left_pan_gain ⟨10, 0, 0⟩ ≤ 1 ∧
        MIN_EAR_AMPLITUDE ≤ demoListener.right_pan_gain ⟨10, 0, 0⟩ ∧
        demoListener.right_pan_gain ⟨10, 0, 0⟩ ≤ 1) :=
  ⟨(C8_panning_gain_formula_and_bounds.1 demoListener ⟨10, 0, 0⟩).1,
    C8_panning_gain_formula_and_bounds.2.1 demoListener demoEmitterA rfl,
    C8_panning_gain_formula_and_bounds.2.2 demoListener ⟨10, 0, 0⟩
      (by simp [demoListener, Quat.normSq])⟩

/-- C9: the stereo frame `process` returns does not depend on the order in
which the emitters are iterated — any permutation of the emitter collection
produces the same sum. -/
theorem C9_process_order_invariant (l : Listener) (es1 es2 : List Emitter)
    (h : es1.Perm es2) : l.process es1 = l.process es2 := by
  have key : ∀ (es : List Emitter) (a : Frame),
      List.foldl (fun output e => output + l.emitter_contribution e) a es =
        a + (es.map l.emitter_contribution).sum := by
    intro es
    induction es with
    | nil => intro a; simp
    | cons e es ih =>
      intro a
      rw [List.foldl_cons, ih, List.map_cons, List.sum_cons, add_assoc]
  rw [Listener.process, Listener.process, key, key,
    List.Perm.sum_eq (h.map l.emitter_contribution)]

/-- Witness for C9: swapping two concrete emitters leaves the processed
frame unchanged. -/
theorem C9_process_order_invariant_witness :
    demoListener.process [demoEmitterA, demoEmitterB] =
      demoListener.process [demoEmitterB, demoEmitterA] :=
  C9_process_order_invariant demoListener _ _
    (List.Perm.swap demoEmitterB demoEmitterA [])

end Kira
